import Mathlib

/-!
Shallow embedding of the e-COS backend core: the event lifecycle state
machine (`events/state_machine.py`), the centralized event policy layer
(`events/policies.py`), the reputation engine (`gamification/engine.py`),
community ownership transfer (`core/views.py`), and event registration
with capacity enforcement (`events/views/registrations.py`).

Database tables are modelled as lists of rows; machine integers are
`Nat`/`Int`; nullable foreign keys are `Option Nat`; Django querysets
become list combinators. Each Python function is translated
branch-for-branch.
-/

namespace Ecos

/-- Event.status choices (`Event.STATUS_CHOICES` in `events/models.py`). -/
inductive EventStatus
  | draft
  | pending
  | approved
  | rejected
  deriving DecidableEq, Repr

/-- The string stored in `Event.status` for each choice. -/
def statusStr : EventStatus → String
  | .draft => "draft"
  | .pending => "pending"
  | .approved => "approved"
  | .rejected => "rejected"

/-- CommunityMembership role choices (`core/models.py`). -/
inductive CommunityRole
  | owner
  | admin
  | organizer
  | member
  | participant
  deriving DecidableEq, Repr

/-- EventTeamMember role choices (`events/models.py`). -/
inductive TeamRole
  | host
  | co_host
  | volunteer
  deriving DecidableEq, Repr

/-- The fields of `users.User` the policy layer reads. `role` is the raw
string column compared against the literal in `is_system_admin`. -/
structure User where
  id : Nat
  is_authenticated : Bool
  is_superuser : Bool
  role : String
  deriving DecidableEq, Repr

/-- The fields of `events.Event` the core reads. `community` is a nullable
foreign key, `organizer_id` the creator, times are clock instants. -/
structure Event where
  id : Nat
  organizer_id : Nat
  community : Option Nat
  status : EventStatus
  capacity : Nat
  start_time : Option Int
  end_time : Option Int
  deriving DecidableEq, Repr

/-- A row of `core.CommunityMembership`. -/
structure CommunityMembership where
  id : Nat
  user : Nat
  community : Nat
  role : CommunityRole
  is_active : Bool
  deriving DecidableEq, Repr

/-- A row of `events.EventTeamMember`. -/
structure EventTeamMember where
  event : Nat
  user : Nat
  role : TeamRole
  is_active : Bool
  deriving DecidableEq, Repr

/-- A row of `events.EventRegistration` (only the fields the embedded
operations read). -/
structure EventRegistration where
  event : Nat
  user : Nat
  guests_count : Nat
  deriving DecidableEq, Repr

/-- The relational state the policy layer queries. -/
structure DB where
  memberships : List CommunityMembership
  team_members : List EventTeamMember
  registrations : List EventRegistration
  deriving DecidableEq, Repr

/-- Surround a string with single-quote characters, as the Python
f-strings in `state_machine.py` do. -/
def sq (s : String) : String :=
  String.singleton (Char.ofNat 39) ++ s ++ String.singleton (Char.ofNat 39)

/-! ## Event lifecycle state machine (`events/state_machine.py`) -/

/-- `VALID_TRANSITIONS`: from-status to the list of allowed to-statuses. -/
def VALID_TRANSITIONS : EventStatus → List EventStatus
  | .draft => [.pending, .approved]
  | .pending => [.approved, .rejected]
  | .approved => [.rejected, .pending]
  | .rejected => [.pending, .draft]

/-- `can_transition(event, new_status)`. The Python guard rejecting a
`new_status` outside `Event.STATUS_CHOICES` is vacuous here because
`EventStatus` ranges over exactly those choices. -/
def can_transition (e : Event) (new_status : EventStatus) : Bool × String :=
  if new_status = e.status then (true, "Same status")
  else if new_status ∉ VALID_TRANSITIONS e.status then
    (false, "Cannot transition from " ++ sq (statusStr e.status)
      ++ " to " ++ sq (statusStr new_status))
  else (true, "")

/-- `transition(event, new_status)`: returns the (possibly updated) event
together with the (success, message) pair. The `save` flag only controls
persistence of the already-mutated object and is not modelled. -/
def transition (e : Event) (new_status : EventStatus) : Event × Bool × String :=
  match can_transition e new_status with
  | (false, reason) => (e, false, reason)
  | (true, _) =>
      ({ e with status := new_status }, true,
        "Transitioned from " ++ sq (statusStr e.status)
          ++ " to " ++ sq (statusStr new_status))

/-- `is_event_upcoming(event)` from `events/datetime_utils.py`, with the
clock passed explicitly. -/
def is_event_upcoming (now : Int) (e : Event) : Bool :=
  match e.start_time with
  | none => false
  | some t => now < t

/-- `is_event_past(event)` from `events/datetime_utils.py`, with the
clock passed explicitly. -/
def is_event_past (now : Int) (e : Event) : Bool :=
  match e.end_time with
  | none => false
  | some t => t < now

/-- Action-name constants used by `validate_action_for_status`. -/
def ACTION_REGISTER : String := "register"

def ACTION_EDIT : String := "edit"

def ACTION_CANCEL : String := "cancel"

def ACTION_SCAN_ATTENDANCE : String := "scan_attendance"

def ACTION_ISSUE_CERTIFICATE : String := "issue_certificate"

/-- `validate_action_for_status(event, action)`: gate an action on the
event lifecycle status (and the clock, for cancel / certificates). -/
def validate_action_for_status (now : Int) (e : Event) (action : String) :
    Bool × String :=
  if action = ACTION_REGISTER then
    if e.status ≠ .approved then
      (false, "Registration is only open for approved events")
    else (true, "")
  else if action = ACTION_EDIT then (true, "")
  else if action = ACTION_CANCEL then
    if ¬ is_event_upcoming now e then
      (false, "Cannot cancel an event that has already started")
    else (true, "")
  else if action = ACTION_SCAN_ATTENDANCE then
    if e.status ≠ .approved then
      (false, "Attendance can only be scanned for approved events")
    else (true, "")
  else if action = ACTION_ISSUE_CERTIFICATE then
    if e.status ≠ .approved then
      (false, "Certificates can only be issued for approved events")
    else if ¬ is_event_past now e then
      (false, "Certificates can only be issued after the event has ended")
    else (true, "")
  else (true, "")

/-! ## Policy layer (`events/policies.py`) -/

/-- `ELEVATED_COMMUNITY_ROLES`. -/
def ELEVATED_COMMUNITY_ROLES : List CommunityRole := [.owner, .admin, .organizer]

/-- `EVENT_TEAM_MANAGEMENT_ROLES`. -/
def EVENT_TEAM_MANAGEMENT_ROLES : List TeamRole := [.host, .co_host]

/-- `EventPolicy.is_system_admin`. -/
def is_system_admin (u : User) : Bool :=
  u.is_authenticated && (u.is_superuser || u.role == "admin")

/-- `EventPolicy.is_community_elevated`. -/
def is_community_elevated (db : DB) (u : User) (community : Option Nat) : Bool :=
  match community with
  | none => false
  | some cid =>
      u.is_authenticated &&
        db.memberships.any fun m =>
          m.user == u.id && m.community == cid &&
            ELEVATED_COMMUNITY_ROLES.contains m.role && m.is_active

/-- `EventPolicy.is_event_team_manager`. -/
def is_event_team_manager (db : DB) (u : User) (e : Event) : Bool :=
  u.is_authenticated &&
    db.team_members.any fun t =>
      t.event == e.id && t.user == u.id &&
        EVENT_TEAM_MANAGEMENT_ROLES.contains t.role && t.is_active

/-- `EventPolicy.is_event_organizer`. -/
def is_event_organizer (u : User) (e : Event) : Bool :=
  u.is_authenticated && e.organizer_id == u.id

/-- `EventPolicy.can_edit_event`. The Python guard `event.community and
...` is folded into `is_community_elevated`, which is already false for a
null community. -/
def can_edit_event (db : DB) (u : User) (e : Event) : Bool × String :=
  if ¬ u.is_authenticated then (false, "Authentication required")
  else if is_system_admin u then (true, "")
  else if is_event_organizer u e then (true, "")
  else if is_event_team_manager db u e then (true, "")
  else if is_community_elevated db u e.community then (true, "")
  else (false, "You do not have permission to edit this event")

/-- `EventPolicy.can_delete_event`. -/
def can_delete_event (db : DB) (u : User) (e : Event) : Bool × String :=
  if ¬ u.is_authenticated then (false, "Authentication required")
  else if is_system_admin u then (true, "")
  else if is_event_organizer u e then (true, "")
  else
    match e.community with
    | some cid =>
        if db.memberships.any (fun m =>
            m.user == u.id && m.community == cid &&
              [CommunityRole.owner, CommunityRole.admin].contains m.role &&
              m.is_active) then
          (true, "")
        else (false, "You do not have permission to delete this event")
    | none => (false, "You do not have permission to delete this event")

/-- `EventPolicy.can_approve_event`. -/
def can_approve_event (db : DB) (u : User) (e : Event) : Bool × String :=
  if ¬ u.is_authenticated then (false, "Authentication required")
  else if is_system_admin u then (true, "")
  else
    match e.community with
    | some cid =>
        if db.memberships.any (fun m =>
            m.user == u.id && m.community == cid &&
              [CommunityRole.owner, CommunityRole.admin].contains m.role &&
              m.is_active) then
          (true, "")
        else (false, "You do not have permission to approve/reject this event")
    | none => (false, "You do not have permission to approve/reject this event")

/-- `EventPolicy.can_register`. -/
def can_register (db : DB) (u : User) (e : Event) : Bool × String :=
  if ¬ u.is_authenticated then (false, "Authentication required")
  else if e.status ≠ .approved then
    (false, "Event is not open for registration")
  else if db.registrations.any (fun r => r.event == e.id && r.user == u.id) then
    (false, "Already registered")
  else (true, "")

/-- `EventPolicy.can_manage_team`: only `host` qualifies among event-team
roles. -/
def can_manage_team (db : DB) (u : User) (e : Event) : Bool × String :=
  if ¬ u.is_authenticated then (false, "Authentication required")
  else if is_system_admin u then (true, "")
  else if is_event_organizer u e then (true, "")
  else if db.team_members.any (fun t =>
      t.event == e.id && t.user == u.id && t.role == TeamRole.host &&
        t.is_active) then
    (true, "")
  else if is_community_elevated db u e.community then (true, "")
  else (false, "You do not have permission to manage the event team")

/-! ## Reputation engine (`gamification/engine.py`, `gamification/models.py`) -/

/-- Activity verb constants from `core/constants.py`. -/
def ACTIVITY_EVENT_ATTENDED : String := "event.attended"

def ACTIVITY_EVENT_CREATED : String := "event.created"

def ACTIVITY_EVENT_PUBLISHED : String := "event.published"

def ACTIVITY_MEMBER_JOINED : String := "community.joined"

def ACTIVITY_CERTIFICATE_ISSUED : String := "certificate.issued"

def ACTIVITY_PENALTY : String := "reputation.penalty"

def ACTIVITY_MANUAL_ADJUSTMENT : String := "reputation.adjustment"

/-- The metadata key the engine reads for dynamic point values. -/
def XP_CHANGE_KEY : String := "xp_change"

/-- A `core.DomainActivity` row as the reputation engine reads it:
`metadata` is modelled as the integer-valued entries of the JSON dict. -/
structure DomainActivity where
  id : Nat
  actor : Nat
  verb : String
  community : Option Nat
  metadata : List (String × Int)
  deriving DecidableEq, Repr

/-- `metadata.get(key, d)` on the modelled JSON dict. -/
def metadataGet (md : List (String × Int)) (key : String) (d : Int) : Int :=
  match md.find? (fun kv => kv.1 == key) with
  | some kv => kv.2
  | none => d

/-- `ReputationEngine.POINTS_MAP` as a partial lookup (Python dict `.get`). -/
def POINTS_MAP (verb : String) : Option Int :=
  if verb = ACTIVITY_EVENT_ATTENDED then some 10
  else if verb = ACTIVITY_EVENT_CREATED then some 50
  else if verb = ACTIVITY_EVENT_PUBLISHED then some 50
  else if verb = ACTIVITY_CERTIFICATE_ISSUED then some 15
  else if verb = ACTIVITY_MEMBER_JOINED then some 5
  else none

/-- The points `process_activity` resolves for an activity: the static
map lookup, overridden for the two dynamic verbs by
`metadata.get(xp_change, 0)`. -/
def activityPoints (a : DomainActivity) : Option Int :=
  if a.verb = ACTIVITY_PENALTY ∨ a.verb = ACTIVITY_MANUAL_ADJUSTMENT then
    some (metadataGet a.metadata XP_CHANGE_KEY 0)
  else POINTS_MAP a.verb

/-- A row of `gamification.ReputationLog`. `activity` is the nullable
source-activity reference (set to the activity id on creation). -/
structure ReputationLog where
  user : Nat
  community : Nat
  amount : Int
  reason : String
  activity : Option Nat
  deriving DecidableEq, Repr

/-- A row of `gamification.UserCommunityStats`. The open per-verb counter
JSON is modelled as an association list. -/
structure UserCommunityStats where
  user : Nat
  community : Nat
  total_xp : Int
  current_level : Int
  events_attended : Nat
  events_hosted : Nat
  stats : List (String × Nat)
  deriving DecidableEq, Repr

/-- The database state the reputation engine touches. -/
structure GamState where
  logs : List ReputationLog
  stats : List UserCommunityStats
  deriving DecidableEq, Repr

/-- Row lookup for `UserCommunityStats.objects.get(...)` by (user,
community): first row whose key matches. -/
def findStats : List UserCommunityStats → Nat → Nat → Option UserCommunityStats
  | [], _, _ => none
  | st :: rest, userId, communityId =>
      if st.user == userId && st.community == communityId then some st
      else findStats rest userId communityId

/-- Persist a stats row: replace the existing row for its (user,
community) key, or insert it. -/
def upsertStats : List UserCommunityStats → UserCommunityStats →
    List UserCommunityStats
  | [], st => [st]
  | x :: xs, st =>
      if x.user == st.user && x.community == st.community then st :: xs
      else x :: upsertStats xs st

/-- `d.get(key, 0)` on the per-verb counter dict. -/
def counterGet (m : List (String × Nat)) (key : String) : Nat :=
  match m.find? (fun kv => kv.1 == key) with
  | some kv => kv.2
  | none => 0

/-- `d[key] = v` on the per-verb counter dict. -/
def counterSet : List (String × Nat) → String → Nat → List (String × Nat)
  | [], key, v => [(key, v)]
  | kv :: rest, key, v =>
      if kv.1 == key then (key, v) :: rest else kv :: counterSet rest key v

/-- The default row `get_or_create` inserts for a missing
(user, community) pair (field defaults from `gamification/models.py`). -/
def defaultStats (userId communityId : Nat) : UserCommunityStats :=
  { user := userId, community := communityId, total_xp := 0,
    current_level := 1, events_attended := 0, events_hosted := 0,
    stats := [] }

/-- The `ReputationLog` row `process_activity` inserts for an activity. -/
def newRepLog (a : DomainActivity) (points : Int) (cid : Nat) : ReputationLog :=
  { user := a.actor, community := cid, amount := points, reason := a.verb,
    activity := some a.id }

/-- `get_or_create` on the stats table: the existing row for (actor,
community) or a fresh default row. -/
def baseStats (s : GamState) (a : DomainActivity) (cid : Nat) :
    UserCommunityStats :=
  match findStats s.stats a.actor cid with
  | some st => st
  | none => defaultStats a.actor cid

/-- The stats row as `process_activity` saves it: XP added, level
recomputed, legacy counters and the per-verb counter map bumped. -/
def updatedStats (s : GamState) (a : DomainActivity) (points : Int)
    (cid : Nat) : UserCommunityStats :=
  let base := baseStats s a cid
  let total := base.total_xp + points
  { base with
    total_xp := total,
    current_level := 1 + max 0 total / 100,
    events_attended :=
      base.events_attended + (if a.verb = ACTIVITY_EVENT_ATTENDED then 1 else 0),
    events_hosted :=
      base.events_hosted +
        (if a.verb = ACTIVITY_EVENT_CREATED ∨ a.verb = ACTIVITY_EVENT_PUBLISHED
          then 1 else 0),
    stats := counterSet base.stats a.verb (counterGet base.stats a.verb + 1) }

/-- The body of the atomic block of `ReputationEngine.process_activity`
once the idempotency check has passed: insert the `ReputationLog` row,
fetch-or-create the stats row and update it. -/
def applyReputation (s : GamState) (a : DomainActivity) (points : Int)
    (cid : Nat) : GamState :=
  { logs := newRepLog a points cid :: s.logs,
    stats := upsertStats s.stats (updatedStats s a points cid) }

/-- `ReputationEngine.process_activity(activity)`. -/
def process_activity (s : GamState) (a : DomainActivity) : GamState :=
  match activityPoints a with
  | none => s
  | some points =>
      match a.community with
      | none => s
      | some cid =>
          if s.logs.any (fun l => l.activity == some a.id) then s
          else applyReputation s a points cid

/-- The empty reputation database. -/
def emptyGamState : GamState := { logs := [], stats := [] }

/-- Process a sequence of activities starting from the empty state. -/
def processAll (activities : List DomainActivity) : GamState :=
  activities.foldl process_activity emptyGamState

/-- Sum of `ReputationLog.amount` over the entries of one (user,
community) pair. -/
def sumAmounts (logs : List ReputationLog) (userId communityId : Nat) : Int :=
  ((logs.filter (fun l => l.user == userId && l.community == communityId)).map
    (fun l => l.amount)).sum

/-- The `total_xp` the stats table reports for a pair (0 when no row
exists). -/
def readTotal (s : GamState) (userId communityId : Nat) : Int :=
  match findStats s.stats userId communityId with
  | some st => st.total_xp
  | none => 0

/-- Ledger/stats consistency: every pair's reported `total_xp` equals the
ledger sum for that pair, and every stored row's `current_level` is the
level formula of its `total_xp`. -/
def StatsInv (s : GamState) : Prop :=
  (∀ userId communityId : Nat,
      readTotal s userId communityId = sumAmounts s.logs userId communityId) ∧
  (∀ st ∈ s.stats, st.current_level = 1 + max 0 st.total_xp / 100)

/-! ## Community ownership transfer (`core/views.py`,
`CommunityOwnershipTransferView.post`) -/

/-- One `membership.save(update_fields=["role"])` call: a single-row role
update, committed on its own (the view wraps the two saves in no
transaction). -/
def applyRoleWrite (ms : List CommunityMembership) (w : Nat × CommunityRole) :
    List CommunityMembership :=
  ms.map fun m => if m.id = w.1 then { m with role := w.2 } else m

/-- Apply a sequence of single-row role updates in order. -/
def applyRoleWrites (ms : List CommunityMembership)
    (ws : List (Nat × CommunityRole)) : List CommunityMembership :=
  ws.foldl applyRoleWrite ms

/-- Result of the ownership-transfer view: an error detail, or the
ordered list of single-row role writes the view issues. -/
inductive TransferResult
  | err (detail : String)
  | ok (writes : List (Nat × CommunityRole))
  deriving DecidableEq, Repr

/-- The checks of `CommunityOwnershipTransferView.post`, returning either
the error detail or the ordered list of single-row role writes the view
then issues (old owner to admin first, then target to owner). -/
def communityOwnershipTransferPost (ms : List CommunityMembership)
    (communityId callerId : Nat) (newOwnerMembershipId : Option Nat) :
    TransferResult :=
  match ms.find? (fun m =>
      m.community == communityId && m.user == callerId && m.is_active) with
  | none => .err "You are not a member of this community."
  | some cur =>
      if cur.role ≠ CommunityRole.owner then
        .err "Only the current owner can transfer ownership."
      else
        match newOwnerMembershipId with
        | none => .err "new_owner_membership_id is required."
        | some nid =>
            match ms.find? (fun m =>
                m.id == nid && m.community == communityId && m.is_active) with
            | none =>
                .err "Target membership not found or not active in this community."
            | some tgt =>
                if tgt.id = cur.id then
                  .err "You are already the owner of this community."
                else
                  .ok [(cur.id, CommunityRole.admin), (tgt.id, CommunityRole.owner)]

/-! ## Event registration (`events/views/registrations.py`,
`RegisterEventView.post`) -/

/-- The outcome of one registration request. -/
inductive RegOutcome
  | registered
  | alreadyRegistered
  | invalidGuests
  | eventFull (spots_left : Nat)
  deriving DecidableEq, Repr

/-- `RegisterEventView.post`, sequentialized: the view runs its capacity
check and insert inside `transaction.atomic()` after
`select_for_update()` on the event row, so concurrent requests execute
this function one after another. The pre-transaction duplicate check is
re-run inside the transaction exactly as in the source. -/
def registerPost (regs : List EventRegistration) (ev : Event)
    (userId guests : Nat) : List EventRegistration × RegOutcome :=
  if regs.any (fun r => r.event == ev.id && r.user == userId) then
    (regs, .alreadyRegistered)
  else if guests > 10 then (regs, .invalidGuests)
  else if regs.any (fun r => r.event == ev.id && r.user == userId) then
    (regs, .alreadyRegistered)
  else if 0 < ev.capacity then
    let evRegs := regs.filter (fun r => r.event == ev.id)
    let total_filled := evRegs.length + (evRegs.map (fun r => r.guests_count)).sum
    let spots_needed := 1 + guests
    if ev.capacity < total_filled + spots_needed then
      (regs, .eventFull (ev.capacity - total_filled))
    else
      ({ event := ev.id, user := userId, guests_count := guests } :: regs,
        .registered)
  else
    ({ event := ev.id, user := userId, guests_count := guests } :: regs,
      .registered)

/-- Run one registration request per user, in order, accumulating the
registration table and the outcomes. -/
def runRegistrations (ev : Event) :
    List Nat → List EventRegistration → List EventRegistration × List RegOutcome
  | [], regs => (regs, [])
  | u :: us, regs =>
      let step := registerPost regs ev u 0
      let rest := runRegistrations ev us step.1
      (rest.1, step.2 :: rest.2)

/-- Recognize a capacity rejection. -/
def isEventFull : RegOutcome → Bool
  | .eventFull _ => true
  | _ => false

/-! ## Fixtures for concrete evaluations -/

/-- An ordinary authenticated user (id 1). -/
def u1 : User :=
  { id := 1, is_authenticated := true, is_superuser := false,
    role := "student" }

/-- A community-scoped approved event organized by user 1. -/
def evC1 : Event :=
  { id := 10, organizer_id := 1, community := some 7,
    status := .approved, capacity := 0, start_time := none, end_time := none }

/-- A database with no memberships, team members or registrations. -/
def emptyDB : DB :=
  { memberships := [], team_members := [], registrations := [] }

/-- A global approved event (no community) with capacity 2, used for
status-independent checks and for the capacity scenario. -/
def evCap2 : Event :=
  { id := 20, organizer_id := 99, community := none,
    status := .approved, capacity := 2, start_time := none, end_time := none }

/-- The transition table as the specification enumerates it. -/
def specTransitionPairs : List (EventStatus × EventStatus) :=
  [(.draft, .pending), (.draft, .approved),
   (.pending, .approved), (.pending, .rejected),
   (.approved, .rejected), (.approved, .pending),
   (.rejected, .pending), (.rejected, .draft)]

/-- The owner membership of community 3 (user 10). -/
def c6_owner : CommunityMembership :=
  { id := 1, user := 10, community := 3, role := .owner, is_active := true }

/-- An ordinary active member of community 3 (user 20). -/
def c6_member : CommunityMembership :=
  { id := 2, user := 20, community := 3, role := .member, is_active := true }

/-- The membership table for the transfer scenario. -/
def c6_ms : List CommunityMembership := [c6_owner, c6_member]

/-- The co-host team row for the witness scenario. -/
def c7_row : EventTeamMember :=
  { event := 10, user := 2, role := .co_host, is_active := true }

/-- The co-host user for the witness scenario. -/
def c7_user : User :=
  { id := 2, is_authenticated := true, is_superuser := false,
    role := "student" }

/-- The database for the witness scenario: one co-host row, nothing else. -/
def c7_db : DB :=
  { memberships := [], team_members := [c7_row], registrations := [] }

/-- An attendance activity by user 1 in community 5. -/
def actAttend : DomainActivity :=
  { id := 1, actor := 1, verb := ACTIVITY_EVENT_ATTENDED, community := some 5,
    metadata := [] }

/-- A second attendance activity (distinct id) by the same user. -/
def actAttend2 : DomainActivity :=
  { id := 2, actor := 1, verb := ACTIVITY_EVENT_ATTENDED, community := some 5,
    metadata := [] }

/-- A penalty activity carrying an xp_change of -500. -/
def actPenalty500 : DomainActivity :=
  { id := 100, actor := 1, verb := ACTIVITY_PENALTY, community := some 5,
    metadata := [(XP_CHANGE_KEY, -500)] }

/-- The stats row produced by processing the -500 penalty from the empty
state. -/
def statPenalty500 : UserCommunityStats :=
  { user := 1, community := 5, total_xp := -500, current_level := 1,
    events_attended := 0, events_hosted := 0,
    stats := [(ACTIVITY_PENALTY, 1)] }

/-! ## Claims about the state machine -/

/-- Claim C2: `transition` succeeds as a no-op on the same status,
succeeds and updates the status exactly on the table pairs, and on every
other pair fails with the quoted reason, leaving the status unchanged. -/
theorem transition_matches_table (e : Event) (s : EventStatus) :
    (s = e.status → (transition e s).1 = e ∧ (transition e s).2.1 = true) ∧
    ((e.status, s) ∈ specTransitionPairs →
      (transition e s).1 = { e with status := s } ∧
        (transition e s).2.1 = true) ∧
    (s ≠ e.status → (e.status, s) ∉ specTransitionPairs →
      transition e s = (e, false,
        "Cannot transition from " ++ sq (statusStr e.status)
          ++ " to " ++ sq (statusStr s))) := by
  rcases e with ⟨eid, org, comm, st, cap, t0, t1⟩
  cases st <;> cases s <;>
    simp [transition, can_transition, VALID_TRANSITIONS, specTransitionPairs,
      statusStr, sq]

/-- Witness for claim C2: an approved event may not move back to draft;
the call fails with the quoted reason and the event is unchanged. -/
theorem transition_matches_table_witness :
    EventStatus.draft ≠ evCap2.status ∧
    (evCap2.status, EventStatus.draft) ∉ specTransitionPairs ∧
    transition evCap2 .draft = (evCap2, false,
      "Cannot transition from " ++ sq (statusStr evCap2.status)
        ++ " to " ++ sq (statusStr .draft)) :=
  ⟨by decide, by decide,
    (transition_matches_table evCap2 .draft).2.2 (by decide) (by decide)⟩

/-! ## Claims about the policy layer -/

/-- Claim C1 counterexample: user 1 is the organizer of the
community-scoped event `evC1`, is not a system admin, and holds no
community membership at all, yet `can_delete_event` allows. -/
theorem can_delete_event_organizer_counterexample :
    is_event_organizer u1 evC1 = true ∧
    is_system_admin u1 = false ∧
    emptyDB.memberships = [] ∧
    evC1.community = some 7 ∧
    can_delete_event emptyDB u1 evC1 = (true, "") := by decide

/-- Claim C1 (amended): the organizer branch of `can_delete_event` fires
before the community branch, so an authenticated organizer is allowed to
delete the event even when it is community-scoped and the organizer holds
no owner/admin membership; the owner/admin-only restriction applies only
to callers who are not the organizer (in particular, a community-role
organizer who did not create the event cannot delete). -/
theorem can_delete_event_organizer_suffices (db : DB) (u : User) (e : Event)
    (hauth : u.is_authenticated = true)
    (horg : is_event_organizer u e = true) :
    can_delete_event db u e = (true, "") := by
  simp [can_delete_event, hauth, horg]

/-- Witness for the amended claim C1, at the counterexample input. -/
theorem can_delete_event_organizer_suffices_witness :
    u1.is_authenticated = true ∧ is_event_organizer u1 evC1 = true ∧
    can_delete_event emptyDB u1 evC1 = (true, "") :=
  ⟨by decide, by decide,
    can_delete_event_organizer_suffices emptyDB u1 evC1 (by decide) (by decide)⟩

/-- Claim C8: for an authenticated user, `can_register` denies on a
non-approved event, denies when a registration row for (event, user)
exists, and otherwise allows with an empty reason. -/
theorem can_register_contract (db : DB) (u : User) (e : Event)
    (hauth : u.is_authenticated = true) :
    (e.status ≠ .approved →
      can_register db u e = (false, "Event is not open for registration")) ∧
    (e.status = .approved →
      db.registrations.any (fun r => r.event == e.id && r.user == u.id) = true →
      can_register db u e = (false, "Already registered")) ∧
    (e.status = .approved →
      db.registrations.any (fun r => r.event == e.id && r.user == u.id) = false →
      can_register db u e = (true, "")) := by
  refine ⟨fun h => ?_, fun h hr => ?_, fun h hr => ?_⟩
  · simp [can_register, hauth, h]
  · simp [can_register, hauth, h, hr]
  · simp [can_register, hauth, h, hr]

/-- Witness for claim C8: user 1 can register for the approved event
`evCap2` in the empty database. -/
theorem can_register_contract_witness :
    u1.is_authenticated = true ∧ evCap2.status = .approved ∧
    emptyDB.registrations.any
      (fun r => r.event == evCap2.id && r.user == u1.id) = false ∧
    can_register emptyDB u1 evCap2 = (true, "") :=
  ⟨by decide, by decide, by decide,
    ((can_register_contract emptyDB u1 evCap2 (by decide)).2.2 (by decide)
      (by decide))⟩

/-- Claim C10: for any clock value, event and lifecycle status, every
action other than the five recognized ones is allowed by default with an
empty reason. -/
theorem validate_action_default_allows (now : Int) (e : Event) (action : String)
    (h : action ∉ [ACTION_REGISTER, ACTION_EDIT, ACTION_CANCEL,
      ACTION_SCAN_ATTENDANCE, ACTION_ISSUE_CERTIFICATE]) :
    validate_action_for_status now e action = (true, "") := by
  simp only [List.mem_cons, List.not_mem_nil, or_false, not_or] at h
  obtain ⟨h1, h2, h3, h4, h5⟩ := h
  simp [validate_action_for_status, h1, h2, h3, h4, h5]

/-- Witness for claim C10: the unknown action string `delete` is allowed
even on a draft event. -/
theorem validate_action_default_allows_witness :
    ("delete" ∉ [ACTION_REGISTER, ACTION_EDIT, ACTION_CANCEL,
      ACTION_SCAN_ATTENDANCE, ACTION_ISSUE_CERTIFICATE]) ∧
    validate_action_for_status 0 { evC1 with status := .draft } "delete"
      = (true, "") :=
  ⟨by decide,
    validate_action_default_allows 0 { evC1 with status := .draft } "delete"
      (by decide)⟩

/-! ## Ownership transfer (claim C6) -/

/-- Claim C6: the view enforces the owner-only, valid-target and
no-self-transfer preconditions (failures produce an error and no row
write), and on success emits the two role writes whose combined effect is
old owner to admin and target to owner. But the two writes are issued as
two separate single-row saves with no enclosing transaction, so the state
after only the first write has the old owner demoted while the target is
unchanged, leaving the community with no active owner: the updates are
not atomic, contrary to the specification. -/
theorem ownership_transfer_writes_not_atomic :
    communityOwnershipTransferPost c6_ms 3 10 (some 2)
      = .ok [(1, CommunityRole.admin), (2, CommunityRole.owner)] ∧
    (applyRoleWrites c6_ms [(1, CommunityRole.admin), (2, CommunityRole.owner)]).map
      (fun m => m.role) = [CommunityRole.admin, CommunityRole.owner] ∧
    communityOwnershipTransferPost c6_ms 3 20 (some 1)
      = .err "Only the current owner can transfer ownership." ∧
    communityOwnershipTransferPost c6_ms 3 10 (some 99)
      = .err "Target membership not found or not active in this community." ∧
    communityOwnershipTransferPost c6_ms 3 10 (some 1)
      = .err "You are already the owner of this community." ∧
    ((applyRoleWrite c6_ms (1, CommunityRole.admin)).map (fun m => m.role)
        = [CommunityRole.admin, CommunityRole.member] ∧
      ¬ ∃ m ∈ applyRoleWrite c6_ms (1, CommunityRole.admin),
        m.role = CommunityRole.owner ∧ m.is_active = true) := by decide

/-! ## Policy composition for a pure co-host (claim C7) -/

/-- Claim C7: an authenticated user who is not a system admin, not the
organizer, holds no community membership, and whose only active
event-team rows for the event carry role `co_host` (with at least one
such row) can edit the event but can neither approve it nor manage its
team. -/
theorem co_host_edit_not_approve_not_manage (db : DB) (u : User) (e : Event)
    (hauth : u.is_authenticated = true)
    (hadmin : is_system_admin u = false)
    (horg : e.organizer_id ≠ u.id)
    (hco : db.team_members.any (fun t =>
      t.event == e.id && t.user == u.id && t.role == TeamRole.co_host &&
        t.is_active) = true)
    (honly : ∀ t ∈ db.team_members,
      t.event = e.id → t.user = u.id → t.is_active = true →
        t.role = TeamRole.co_host)
    (hnomem : ∀ m ∈ db.memberships, m.user ≠ u.id) :
    can_edit_event db u e = (true, "") ∧
    can_approve_event db u e =
      (false, "You do not have permission to approve/reject this event") ∧
    can_manage_team db u e =
      (false, "You do not have permission to manage the event team") := by
  have horg' : is_event_organizer u e = false := by
    simp [is_event_organizer, horg]
  have hmgr : is_event_team_manager db u e = true := by
    simp only [is_event_team_manager, hauth, Bool.true_and]
    rw [List.any_eq_true] at hco ⊢
    obtain ⟨t, ht, hpred⟩ := hco
    simp only [Bool.and_eq_true, beq_iff_eq] at hpred
    obtain ⟨⟨⟨hev, hus⟩, hrole⟩, hact⟩ := hpred
    refine ⟨t, ht, ?_⟩
    simp [hev, hus, hrole, hact, EVENT_TEAM_MANAGEMENT_ROLES]
  have hmemany : ∀ cid : Nat, db.memberships.any (fun m =>
      m.user == u.id && m.community == cid &&
        [CommunityRole.owner, CommunityRole.admin].contains m.role &&
        m.is_active) = false := by
    intro cid
    rw [List.any_eq_false]
    intro m hm
    simp [hnomem m hm]
  have hnoelev : is_community_elevated db u e.community = false := by
    cases hc : e.community with
    | none => simp [is_community_elevated]
    | some cid =>
        simp only [is_community_elevated, hauth, Bool.true_and]
        rw [List.any_eq_false]
        intro m hm
        simp [hnomem m hm]
  have hnohost : db.team_members.any (fun t =>
      t.event == e.id && t.user == u.id && t.role == TeamRole.host &&
        t.is_active) = false := by
    rw [List.any_eq_false]
    intro t ht
    by_cases hev : t.event = e.id
    · by_cases hus : t.user = u.id
      · by_cases hact : t.is_active = true
        · have hrole := honly t ht hev hus hact
          simp [hrole]
        · simp [Bool.not_eq_true] at hact
          simp [hact]
      · simp [hus]
    · simp [hev]
  refine ⟨?_, ?_, ?_⟩
  · simp [can_edit_event, hauth, hadmin, horg', hmgr]
  · unfold can_approve_event
    cases hc : e.community with
    | none => simp [hauth, hadmin]
    | some cid =>
        simp [hauth, hadmin]
        intro m hm h1 _ _
        exact absurd h1 (hnomem m hm)
  · simp [can_manage_team, hauth, hadmin, horg', hnohost, hnoelev]

/-- Witness for claim C7: user 2 is a pure co-host of `evC1` and gets
exactly edit rights. -/
theorem co_host_edit_not_approve_not_manage_witness :
    c7_user.is_authenticated = true ∧
    is_system_admin c7_user = false ∧
    evC1.organizer_id ≠ c7_user.id ∧
    can_edit_event c7_db c7_user evC1 = (true, "") ∧
    can_approve_event c7_db c7_user evC1 =
      (false, "You do not have permission to approve/reject this event") ∧
    can_manage_team c7_db c7_user evC1 =
      (false, "You do not have permission to manage the event team") := by
  have h := co_host_edit_not_approve_not_manage c7_db c7_user evC1
    (by decide) (by decide) (by decide) (by decide)
    (by decide) (by decide)
  exact ⟨by decide, by decide, by decide, h.1, h.2.1, h.2.2⟩

/-! ## Reputation idempotency (claim C3) -/

/-- When a reputation log entry already references the activity, the
engine is a no-op. -/
lemma process_activity_of_exists (s : GamState) (a : DomainActivity)
    (hex : s.logs.any (fun l => l.activity == some a.id) = true) :
    process_activity s a = s := by
  unfold process_activity
  cases hp : activityPoints a with
  | none => rfl
  | some p =>
      cases hc : a.community with
      | none => rfl
      | some cid => simp [hex]

/-- Every call either leaves the state unchanged or produces a state
whose logs reference the activity. -/
lemma process_activity_cases (s : GamState) (a : DomainActivity) :
    process_activity s a = s ∨
    (process_activity s a).logs.any (fun l => l.activity == some a.id) = true := by
  unfold process_activity
  cases hp : activityPoints a with
  | none => exact Or.inl rfl
  | some p =>
      cases hc : a.community with
      | none => exact Or.inl rfl
      | some cid =>
          by_cases hex : s.logs.any (fun l => l.activity == some a.id) = true
          · simp [hex]
          · right
            simp [hex, applyReputation, newRepLog]

/-- Claim C3: `process_activity` is idempotent per activity: processing
the same activity a second time leaves the reputation logs and the stats
table exactly as after the first call. -/
theorem process_activity_idempotent (s : GamState) (a : DomainActivity) :
    process_activity (process_activity s a) a = process_activity s a := by
  rcases process_activity_cases s a with h | h
  · rw [h]
    exact h
  · exact process_activity_of_exists _ a h

/-! ## Ledger/stats consistency (claims C4 and C5) -/

/-- Projection of `applyReputation` onto the log table. -/
lemma applyReputation_logs_eq (s : GamState) (a : DomainActivity) (p : Int)
    (cid : Nat) :
    (applyReputation s a p cid).logs = newRepLog a p cid :: s.logs := rfl

/-- Projection of `applyReputation` onto the stats table. -/
lemma applyReputation_stats_eq (s : GamState) (a : DomainActivity) (p : Int)
    (cid : Nat) :
    (applyReputation s a p cid).stats =
      upsertStats s.stats (updatedStats s a p cid) := rfl

/-- The saved row keeps the key of the fetched-or-created row. -/
lemma updatedStats_user (s : GamState) (a : DomainActivity) (p : Int)
    (cid : Nat) : (updatedStats s a p cid).user = (baseStats s a cid).user := rfl

/-- The saved row keeps the key of the fetched-or-created row. -/
lemma updatedStats_community (s : GamState) (a : DomainActivity) (p : Int)
    (cid : Nat) :
    (updatedStats s a p cid).community = (baseStats s a cid).community := rfl

/-- The saved row's XP is the fetched row's XP plus the points. -/
lemma updatedStats_total (s : GamState) (a : DomainActivity) (p : Int)
    (cid : Nat) :
    (updatedStats s a p cid).total_xp = (baseStats s a cid).total_xp + p := rfl

/-- The saved row's level is recomputed from its own XP. -/
lemma updatedStats_level (s : GamState) (a : DomainActivity) (p : Int)
    (cid : Nat) :
    (updatedStats s a p cid).current_level =
      1 + max 0 (updatedStats s a p cid).total_xp / 100 := rfl

/-- A successful lookup returns a row carrying the searched key. -/
lemma findStats_eq_some_key {l : List UserCommunityStats} {u c : Nat}
    {st : UserCommunityStats} (h : findStats l u c = some st) :
    st.user = u ∧ st.community = c := by
  induction l with
  | nil => simp [findStats] at h
  | cons x xs ih =>
      by_cases hx : (x.user == u && x.community == c) = true
      · simp only [findStats, hx, if_true] at h
        have hx' : x.user = u ∧ x.community = c := by
          simpa [Bool.and_eq_true, beq_iff_eq] using hx
        cases h
        exact hx'
      · simp only [findStats, hx, if_false] at h
        exact ih h

/-- The fetched-or-created row carries the activity's key. -/
lemma baseStats_key (s : GamState) (a : DomainActivity) (cid : Nat) :
    (baseStats s a cid).user = a.actor ∧ (baseStats s a cid).community = cid := by
  unfold baseStats
  cases h : findStats s.stats a.actor cid with
  | none => simp [defaultStats]
  | some st => exact findStats_eq_some_key h

/-- The fetched-or-created row's XP is the reported total for the key. -/
lemma baseStats_total (s : GamState) (a : DomainActivity) (cid : Nat) :
    (baseStats s a cid).total_xp = readTotal s a.actor cid := by
  unfold baseStats readTotal
  cases h : findStats s.stats a.actor cid <;> simp [defaultStats]

/-- Looking up the saved row's own key finds exactly the saved row. -/
lemma findStats_upsert_self (l : List UserCommunityStats)
    (st : UserCommunityStats) :
    findStats (upsertStats l st) st.user st.community = some st := by
  induction l with
  | nil => simp [upsertStats, findStats]
  | cons x xs ih =>
      by_cases h : (x.user == st.user && x.community == st.community) = true
      · simp [upsertStats, h, findStats]
      · have h' : (x.user == st.user && x.community == st.community) = false := by
          simpa using h
        simp only [upsertStats, h', Bool.false_eq_true, if_false]
        simp only [findStats, h', Bool.false_eq_true, if_false]
        exact ih

/-- Saving a row does not disturb lookups under any other key. -/
lemma findStats_upsert_other (l : List UserCommunityStats)
    (st : UserCommunityStats) (u c : Nat)
    (h : ¬(u = st.user ∧ c = st.community)) :
    findStats (upsertStats l st) u c = findStats l u c := by
  have hst : (st.user == u && st.community == c) = false := by
    rw [Bool.eq_false_iff]
    intro hcon
    simp only [Bool.and_eq_true, beq_iff_eq] at hcon
    exact h ⟨hcon.1.symm, hcon.2.symm⟩
  induction l with
  | nil => simp [upsertStats, findStats, hst]
  | cons x xs ih =>
      by_cases hx : (x.user == st.user && x.community == st.community) = true
      · have hxu : x.user = st.user ∧ x.community = st.community := by
          simpa [Bool.and_eq_true, beq_iff_eq] using hx
        have hxf : (x.user == u && x.community == c) = false := by
          rw [hxu.1, hxu.2]
          exact hst
        simp [upsertStats, hx, findStats, hst, hxf]
      · have hx' : (x.user == st.user && x.community == st.community) = false := by
          simpa using hx
        simp only [upsertStats, hx', Bool.false_eq_true, if_false]
        by_cases hxf : (x.user == u && x.community == c) = true
        · simp [findStats, hxf]
        · have hxf' : (x.user == u && x.community == c) = false := by
            simpa using hxf
          simp only [findStats, hxf', Bool.false_eq_true, if_false]
          exact ih

/-- Every row of the saved table is the saved row or an original row. -/
lemma mem_upsertStats {l : List UserCommunityStats} {st x : UserCommunityStats}
    (hx : x ∈ upsertStats l st) : x = st ∨ x ∈ l := by
  induction l with
  | nil =>
      simp [upsertStats] at hx
      exact Or.inl hx
  | cons y ys ih =>
      by_cases h : (y.user == st.user && y.community == st.community) = true
      · simp only [upsertStats, h, if_true] at hx
        rcases List.mem_cons.mp hx with h1 | h1
        · exact Or.inl h1
        · exact Or.inr (List.mem_cons_of_mem _ h1)
      · have h' : (y.user == st.user && y.community == st.community) = false := by
          simpa using h
        simp only [upsertStats, h', Bool.false_eq_true, if_false] at hx
        rcases List.mem_cons.mp hx with h1 | h1
        · exact Or.inr (by simp [h1])
        · rcases ih h1 with h2 | h2
          · exact Or.inl h2
          · exact Or.inr (List.mem_cons_of_mem _ h2)

/-- Unfolding lemma for the per-pair ledger sum. -/
lemma sumAmounts_cons (l0 : ReputationLog) (logs : List ReputationLog)
    (u c : Nat) :
    sumAmounts (l0 :: logs) u c =
      (if l0.user = u ∧ l0.community = c then l0.amount else 0)
        + sumAmounts logs u c := by
  by_cases h : l0.user = u ∧ l0.community = c
  · obtain ⟨h1, h2⟩ := h
    simp [sumAmounts, h1, h2, List.filter_cons]
  · have hb : (l0.user == u && l0.community == c) = false := by
      rw [Bool.eq_false_iff]
      intro hcon
      simp only [Bool.and_eq_true, beq_iff_eq] at hcon
      exact h hcon
    simp [sumAmounts, List.filter_cons, hb, h]

/-- Reading the total through a known lookup result. -/
lemma readTotal_eq_of_find {s : GamState} {u c : Nat} {st : UserCommunityStats}
    (h : findStats s.stats u c = some st) : readTotal s u c = st.total_xp := by
  unfold readTotal
  rw [h]

/-- Reading the total only depends on the lookup result. -/
lemma readTotal_congr {s₁ s₂ : GamState} {u c : Nat}
    (h : findStats s₁.stats u c = findStats s₂.stats u c) :
    readTotal s₁ u c = readTotal s₂ u c := by
  unfold readTotal
  rw [h]

/-- The atomic insert-and-update block preserves the consistency
invariant. -/
lemma statsInv_apply (s : GamState) (a : DomainActivity) (p : Int) (cid : Nat)
    (hInv : StatsInv s) : StatsInv (applyReputation s a p cid) := by
  obtain ⟨hTot, hLev⟩ := hInv
  have hkey := baseStats_key s a cid
  have hup_user : (updatedStats s a p cid).user = a.actor := by
    rw [updatedStats_user]
    exact hkey.1
  have hup_comm : (updatedStats s a p cid).community = cid := by
    rw [updatedStats_community]
    exact hkey.2
  constructor
  · intro u c
    by_cases hk : u = a.actor ∧ c = cid
    · obtain ⟨h1, h2⟩ := hk
      have hfind : findStats (applyReputation s a p cid).stats u c
          = some (updatedStats s a p cid) := by
        rw [applyReputation_stats_eq, h1, h2]
        have h0 := findStats_upsert_self s.stats (updatedStats s a p cid)
        rwa [hup_user, hup_comm] at h0
      have hread := readTotal_eq_of_find hfind
      have hsum : sumAmounts (applyReputation s a p cid).logs u c
          = p + sumAmounts s.logs u c := by
        rw [applyReputation_logs_eq, sumAmounts_cons]
        simp [newRepLog, h1, h2]
      rw [hread, hsum, updatedStats_total, baseStats_total, h1, h2, hTot]
      omega
    · have hne : ¬(u = (updatedStats s a p cid).user ∧
          c = (updatedStats s a p cid).community) := by
        rw [hup_user, hup_comm]
        exact hk
      have hfind : findStats (applyReputation s a p cid).stats u c
          = findStats s.stats u c := by
        rw [applyReputation_stats_eq]
        exact findStats_upsert_other s.stats (updatedStats s a p cid) u c hne
      have hread := readTotal_congr hfind
      have hlogkey : ¬(a.actor = u ∧ cid = c) := by
        intro hcon
        exact hk ⟨hcon.1.symm, hcon.2.symm⟩
      have hsum : sumAmounts (applyReputation s a p cid).logs u c
          = sumAmounts s.logs u c := by
        rw [applyReputation_logs_eq, sumAmounts_cons]
        simp [newRepLog, hlogkey]
      rw [hread, hsum]
      exact hTot u c
  · intro st hst
    rw [applyReputation_stats_eq] at hst
    rcases mem_upsertStats hst with h | h
    · rw [h]
      exact updatedStats_level s a p cid
    · exact hLev st h

/-- `process_activity` preserves the consistency invariant. -/
lemma statsInv_process (s : GamState) (a : DomainActivity)
    (hInv : StatsInv s) : StatsInv (process_activity s a) := by
  unfold process_activity
  cases hp : activityPoints a with
  | none => exact hInv
  | some p =>
      cases hc : a.community with
      | none => exact hInv
      | some cid =>
          by_cases hex : s.logs.any (fun l => l.activity == some a.id) = true
          · simp only [hex, if_true]
            exact hInv
          · have hex' : (s.logs.any fun l => l.activity == some a.id) = false := by
              simpa using hex
            simp only [hex', Bool.false_eq_true, if_false]
            exact statsInv_apply s a p cid hInv

/-- The empty reputation state is consistent. -/
lemma statsInv_empty : StatsInv emptyGamState := by
  constructor
  · intro u c
    simp [readTotal, findStats, sumAmounts, emptyGamState]
  · intro st hst
    simp [emptyGamState] at hst

/-- Any activity sequence processed from the empty state yields a
consistent state. -/
lemma statsInv_processAll (activities : List DomainActivity) :
    StatsInv (processAll activities) := by
  have main : ∀ (s : GamState), StatsInv s →
      StatsInv (activities.foldl process_activity s) := by
    induction activities with
    | nil => exact fun s h => h
    | cons a rest ih => exact fun s h => ih _ (statsInv_process s a h)
  exact main emptyGamState statsInv_empty

/-- Claim C4: after any activity sequence from the empty state, every
(user, community) pair's reported `total_xp` equals the ledger sum of
`ReputationLog.amount` for the pair, every stored row's `current_level`
is `1 + max 0 total_xp / 100`, and each `process_activity` call preserves
this invariant. -/
theorem ledger_stats_consistency :
    (∀ activities : List DomainActivity, StatsInv (processAll activities)) ∧
    (∀ (s : GamState) (a : DomainActivity),
      StatsInv s → StatsInv (process_activity s a)) :=
  ⟨statsInv_processAll, statsInv_process⟩

/-- Witness for claim C4: the invariant holds after processing an
attendance activity on top of the singleton history. -/
theorem ledger_stats_consistency_witness :
    StatsInv (process_activity (processAll [actAttend]) actAttend2) :=
  ledger_stats_consistency.2 (processAll [actAttend]) actAttend2
    (ledger_stats_consistency.1 [actAttend])

/-- Claim C5: every stats row the engine ever stores satisfies
`current_level = 1 + max 0 total_xp / 100`, hence `current_level ≥ 1`
even for negative XP; and XP itself is not floored: a penalty activity
with an xp_change of -500 drives the stored total to -500 while the
level stays 1. -/
theorem level_formula_and_floor :
    (∀ (activities : List DomainActivity) (st : UserCommunityStats),
      st ∈ (processAll activities).stats →
      st.current_level = 1 + max 0 st.total_xp / 100 ∧
        1 ≤ st.current_level) ∧
    readTotal (processAll [actPenalty500]) 1 5 = -500 ∧
    findStats (processAll [actPenalty500]).stats 1 5 = some statPenalty500 ∧
    statPenalty500.total_xp = -500 ∧ statPenalty500.current_level = 1 := by
  refine ⟨fun activities st hst => ?_, by decide, by decide, by decide, by decide⟩
  have hlev := (statsInv_processAll activities).2 st hst
  refine ⟨hlev, ?_⟩
  rw [hlev]
  have hm : (0 : Int) ≤ max 0 st.total_xp := le_max_left 0 st.total_xp
  omega

/-- Witness for claim C5: the concrete stored row for the -500 penalty
satisfies the level formula and the floor. -/
theorem level_formula_and_floor_witness :
    statPenalty500 ∈ (processAll [actPenalty500]).stats ∧
    (statPenalty500.current_level = 1 + max 0 statPenalty500.total_xp / 100 ∧
      1 ≤ statPenalty500.current_level) :=
  ⟨by decide, level_formula_and_floor.1 [actPenalty500] statPenalty500 (by decide)⟩

/-! ## Registration capacity (claim C9). The view locks the event row
with `select_for_update` and performs the duplicate re-check, the
capacity check and the insert inside that transaction, so concurrent
requests serialize; every interleaving therefore corresponds to some
order of sequential executions, quantified below. -/

/-- Claim C9: for an event of capacity 2 and three distinct users, every
serialization order of the three locked registration transactions yields
exactly two successful registrations, exactly one capacity rejection, and
two stored registration rows. -/
theorem capacity_two_admits_exactly_two (ev : Event) (hcap : ev.capacity = 2)
    (users : List Nat) (hlen : users.length = 3) (hnd : users.Nodup) :
    (runRegistrations ev users []).2.count RegOutcome.registered = 2 ∧
    ((runRegistrations ev users []).2.filter isEventFull).length = 1 ∧
    (runRegistrations ev users []).1.length = 2 := by
  rcases users with _ | ⟨a, _ | ⟨b, _ | ⟨c, _ | ⟨d, rest⟩⟩⟩⟩ <;>
    simp only [List.length_nil, List.length_cons] at hlen
  · omega
  · omega
  · omega
  case cons.cons.cons.nil =>
    simp only [List.nodup_cons, List.mem_cons, List.mem_singleton,
      List.not_mem_nil, or_false, not_or, List.nodup_nil, and_true] at hnd
    obtain ⟨⟨hab, hac⟩, hbc⟩ := hnd
    have hab' : (a == b) = false := by simp [hab]
    have hac' : (a == c) = false := by simp [hac]
    have hbc' : (b == c) = false := by simp [hbc]
    simp [runRegistrations, registerPost, hcap, hab', hac', hbc',
      List.count_cons, isEventFull]
  case cons.cons.cons.cons => omega

/-- Witness for claim C9: users 1, 2, 3 racing for the capacity-2 event
`evCap2` produce two successes and one capacity rejection. -/
theorem capacity_two_admits_exactly_two_witness :
    evCap2.capacity = 2 ∧ ([1, 2, 3] : List Nat).length = 3 ∧
    ([1, 2, 3] : List Nat).Nodup ∧
    (runRegistrations evCap2 [1, 2, 3] []).2.count RegOutcome.registered = 2 ∧
    ((runRegistrations evCap2 [1, 2, 3] []).2.filter isEventFull).length = 1 ∧
    (runRegistrations evCap2 [1, 2, 3] []).1.length = 2 := by
  have h := capacity_two_admits_exactly_two evCap2 (by decide) [1, 2, 3]
    (by decide) (by decide)
  exact ⟨by decide, by decide, by decide, h.1, h.2.1, h.2.2⟩

end Ecos
